import Mathlib

/-!
Shallow embedding of the `telegrambot` Go package (bot.go, types.go).

HTTP effects are modelled by passing the outcome of each network call as an
explicit argument of type `HttpResult`: either a network failure (the error
returned by `Client.PostForm` / `http.Get`) or a response carrying the HTTP
status code and the body.  For operations that JSON-decode their body, the
body is the decode outcome (`Except String T`); for operations that never
read the body, the body is the well-formed envelope the platform sent, which
the operation ignores exactly as the source does.

Mutation of the `Bot` receiver is modelled by returning the (possibly
updated) `Bot` value; outbound calls made by the dispatcher are recorded in
an explicit event trace.
-/

namespace TelegramBot

/-- types.go: `User` represents a user on Telegram. -/
structure User where
  ID : Int
  IsBot : Bool
  FirstName : String
  LastName : String
  Username : String
  LanguageCode : String
deriving Repr, DecidableEq

/-- types.go: `Chat` represents a chat on Telegram (Go field `Type` is
rendered `type`, since `Type` is reserved in Lean). -/
structure Chat where
  ID : Int
  type : String
  Title : String
  Username : String
  FirstName : String
  LastName : String
deriving Repr, DecidableEq

/-- types.go: `Document` represents a document sent to the bot. -/
structure Document where
  FileID : String
  FileName : String
  FileSize : Int
deriving Repr, DecidableEq

/-- types.go: `Message` represents a message from Telegram. -/
structure Message where
  MessageID : Int
  From : User
  Chat : Chat
  Date : Int
  Text : String
  Document : Document
deriving Repr, DecidableEq

/-- types.go: `Update` represents an update from Telegram. -/
structure Update where
  UpdateID : Int
  Message : Message
deriving Repr, DecidableEq

/-- types.go: `UpdateResponse`, the envelope of `getUpdates`. -/
structure UpdateResponse where
  Ok : Bool
  Result : List Update
deriving Repr, DecidableEq

/-- types.go: `File`, the file information inside a `getFile` response. -/
structure File where
  FileID : String
  FilePath : String
deriving Repr, DecidableEq

/-- types.go: `FileResponse`, the envelope of `getFile`. -/
structure FileResponse where
  Ok : Bool
  Result : File
deriving Repr, DecidableEq

/-- The generic platform envelope `{ok, description}`, used to describe the
body of responses whose payload the source never decodes. -/
structure Envelope where
  ok : Bool
  description : String
deriving Repr, DecidableEq

/-- The embedded `http.Client` (only its configuration is relevant: the
total-request timeout, 30 s in `NewBot`). -/
structure HttpClient where
  Timeout : Nat
deriving Repr, DecidableEq

/-- A command handler: `func(chatID int64) string`. -/
def Handler : Type := Int → String

/-- bot.go: the `Bot` struct.  The Go `map[string]func(int64) string` is
modelled as a partial function from command text to handler; the mutex only
serializes access and has no sequential meaning, so it is not carried. -/
structure Bot where
  Token : String
  Client : HttpClient
  commands : String → Option Handler

/-- bot.go: `NewBot` creates a new Telegram Bot instance. -/
def NewBot (token : String) : Bot :=
  { Token := token
    Client := { Timeout := 30 }
    commands := fun _ => none }

/-- Outcome of one HTTP round trip, passed to each operation as an oracle:
`failure` is the error returned by the Go HTTP client, `success` carries the
status code and the body (already shaped as the operation would read it). -/
inductive HttpResult (α : Type) where
  | failure (msg : String)
  | success (StatusCode : Nat) (body : α)
deriving Repr, DecidableEq

/-- The errors the package produces: errors forwarded from the HTTP client,
JSON decode errors forwarded from `json.Decoder`, and the package's own
`errors.New` / `fmt.Errorf` messages. -/
inductive GoError where
  | netErr (msg : String)
  | decodeErr (msg : String)
  | errorsNew (msg : String)
deriving Repr, DecidableEq

/-- bot.go: `SendMessage` posts the form and then checks only
`resp.StatusCode != http.StatusOK`; the response body is never read. -/
def SendMessage (b : Bot) (chatID : Int) (text : String)
    (resp : HttpResult Envelope) : Except GoError Unit :=
  match resp with
  | .failure e => .error (.netErr e)
  | .success status _ =>
    if status ≠ 200 then .error (.errorsNew "failed to send message")
    else .ok ()

/-- bot.go: `GetUpdates` posts the form, JSON-decodes the body into an
`UpdateResponse` and checks its `Ok` field.  The HTTP status code is never
inspected. -/
def GetUpdates (b : Bot) (offset : Int)
    (resp : HttpResult (Except String UpdateResponse)) :
    Except GoError (List Update) :=
  match resp with
  | .failure e => .error (.netErr e)
  | .success _ body =>
    match body with
    | .error e => .error (.decodeErr e)
    | .ok r =>
      if !r.Ok then .error (.errorsNew "failed to get updates")
      else .ok r.Result

/-- bot.go: `GetFileURL` posts the form, rejects `StatusCode != 200`, decodes
a `FileResponse`, rejects `Ok = false`, and builds the download URL from the
token and the envelope's `result.file_path`. -/
def GetFileURL (b : Bot) (fileID : String)
    (resp : HttpResult (Except String FileResponse)) :
    Except GoError String :=
  match resp with
  | .failure e => .error (.netErr e)
  | .success status body =>
    if status ≠ 200 then .error (.errorsNew "failed to get file URL")
    else
      match body with
      | .error e => .error (.decodeErr e)
      | .ok fr =>
        if !fr.Ok then .error (.errorsNew "failed to get file URL")
        else .ok ("https://api.telegram.org/file/bot" ++ b.Token ++ "/" ++ fr.Result.FilePath)

/-- bot.go: `SendFile` opens the local file (outcome passed as `file`: the
error from `os.Open` / `io.Copy`, or the bytes copied into the multipart
body), posts the request, and checks only `resp.StatusCode != 200`; the
response body is never read. -/
def SendFile (b : Bot) (chatID : Int) (filePath : String) (caption : String)
    (file : Except String (List Nat)) (resp : HttpResult Envelope) :
    Except GoError Unit :=
  match file with
  | .error e => .error (.errorsNew ("could not open file: " ++ e))
  | .ok _ =>
    match resp with
    | .failure e => .error (.errorsNew ("could not send request: " ++ e))
    | .success status _ =>
      if status ≠ 200 then
        .error (.errorsNew ("failed to send file: " ++ toString status))
      else .ok ()

/-- State of the `bufio.Reader` wrapped around the `http.Get` body:
`buf` is the buffered, not yet consumed window (`b.buf[b.r:b.w]`), `rest`
is the part of the stream the underlying reader has not delivered yet, and
`eofSeen` records a sticky `b.err = io.EOF`.  A net/http body delivers
`io.EOF` on a separate `Read` call after the final bytes, never together
with them: `fill` therefore learns of EOF only when `rest` is already
empty. -/
structure ReaderState where
  buf : List Nat
  rest : List Nat
  eofSeen : Bool
deriving Repr, DecidableEq

/-- The two errors `ReadSlice` can produce in this setting. -/
inductive SliceErr where
  | bufferFull
  | eof
deriving Repr, DecidableEq

/-- `bufio.Reader.ReadSlice('\n')`, the loop inside `ReadLine`: scan the
buffered window for LF; else, in this order, surface a pending read error
(returning whatever is buffered), report a full buffer (`ErrBufferFull`),
or `fill` from the underlying reader and rescan.  `fill` on an exhausted
stream records `io.EOF`; otherwise it moves bytes into the free space of
the buffer (bufio may need several short reads for that, but `ReadSlice`
keeps filling until LF / error / full, so moving all available bytes at
once reaches the same exit with the same result). -/
def readSlice (cap : Nat) (buf rest : List Nat) (eofSeen : Bool) :
    List Nat × ReaderState × Option SliceErr :=
  match List.findIdx? (fun c => c == 10) buf with
  | some i => (buf.take (i + 1), ⟨buf.drop (i + 1), rest, eofSeen⟩, none)
  | none =>
    if he : eofSeen then (buf, ⟨[], rest, eofSeen⟩, some SliceErr.eof)
    else if hc : cap ≤ buf.length then
      (buf, ⟨[], rest, eofSeen⟩, some SliceErr.bufferFull)
    else if hr : rest = [] then readSlice cap buf [] true
    else
      readSlice cap (buf ++ rest.take (cap - buf.length))
        (rest.drop (cap - buf.length)) eofSeen
termination_by 2 * rest.length + (if eofSeen then 0 else 1)
decreasing_by
  · simp only [Bool.not_eq_true] at he
    simp [hr, he]
  · simp only [Bool.not_eq_true] at he
    have h1 : 0 < rest.length := List.length_pos.mpr hr
    have h2 : buf.length < cap := Nat.lt_of_not_le hc
    simp only [List.length_drop, he, if_false]
    omega

theorem findIdx?_some_ne_nil {p : Nat → Bool} {l : List Nat} {j i : Nat}
    (h : List.findIdx? p l j = some i) : l ≠ [] := by
  intro hl; subst hl; simp at h

/-- Conservation and shape facts about one `ReadSlice` call: the returned
line and the new state repartition the input bytes; a no-error return
carries a nonempty line; an `ErrBufferFull` line has at least `cap` bytes;
a seen EOF stays seen. -/
theorem readSlice_spec (cap : Nat) (buf rest : List Nat) (eofSeen : Bool) :
    ((readSlice cap buf rest eofSeen).2.1.buf.length +
        (readSlice cap buf rest eofSeen).2.1.rest.length +
        (readSlice cap buf rest eofSeen).1.length = buf.length + rest.length) ∧
    ((readSlice cap buf rest eofSeen).2.2 = none →
      (readSlice cap buf rest eofSeen).1 ≠ []) ∧
    ((readSlice cap buf rest eofSeen).2.2 = some SliceErr.bufferFull →
      cap ≤ (readSlice cap buf rest eofSeen).1.length) ∧
    (eofSeen = true → (readSlice cap buf rest eofSeen).2.1.eofSeen = true) := by
  induction buf, rest, eofSeen using readSlice.induct cap with
  | case1 buf rest eofSeen i hidx =>
    rw [readSlice, hidx]
    refine ⟨?_, ?_, ?_, ?_⟩
    · simp only [List.length_drop, List.length_take]
      omega
    · intro _
      have hne : buf ≠ [] := findIdx?_some_ne_nil hidx
      have : 0 < buf.length := List.length_pos.mpr hne
      simp only [ne_eq, ← List.length_pos, List.length_take]
      omega
    · intro hco; cases hco
    · intro hx; exact hx
  | case2 buf rest hidx =>
    rw [readSlice, hidx]
    have hT : True := trivial
    simp only [eq_self_iff_true, dif_pos hT]
    refine ⟨by simp only [List.length_nil]; omega, ?_, ?_, fun _ => trivial⟩
    · intro hco; cases hco
    · intro hco; cases hco
  | case3 buf rest eofSeen hidx he hc =>
    rw [readSlice, hidx]
    simp only [dif_neg he, dif_pos hc]
    refine ⟨by simp only [List.length_nil]; omega, ?_, fun _ => hc, ?_⟩
    · intro hco; cases hco
    · intro hx; exact absurd hx he
  | case4 buf eofSeen hidx he hc ih =>
    rw [readSlice, hidx]
    simp only [dif_neg he, dif_neg hc, dif_pos rfl]
    refine ⟨ih.1, ih.2.1, ih.2.2.1, ?_⟩
    · intro hx; exact absurd hx he
  | case5 buf rest eofSeen hidx he hc hr ih =>
    rw [readSlice, hidx]
    simp only [dif_neg he, dif_neg hc, dif_neg hr]
    refine ⟨?_, ih.2.1, ih.2.2.1, fun hx => ih.2.2.2 hx⟩
    · rw [ih.1]
      simp only [List.length_append, List.length_take, List.length_drop]
      omega

/-- `bufio.Reader.ReadLine`: one `ReadSlice('\n')` call.  On
`ErrBufferFull`, a trailing CR is put back into the buffer (it might be the
first half of a CRLF) and the call reports `isPrefix = true` with no error.
Otherwise an empty line surfaces the pending error (`io.EOF` here, modelled
as `none`); a nonempty line is a completed line, `isPrefix = false`, the
error suppressed.  The result is the `isPrefix` flag (or `none` for an
EOF-error return) and the new reader state; the line bytes themselves are
irrelevant to the caller's counting. -/
def readLine (cap : Nat) (st : ReaderState) : Option Bool × ReaderState :=
  match readSlice cap st.buf st.rest st.eofSeen with
  | (line, st2, err) =>
    if err = some SliceErr.bufferFull then
      if line ≠ [] ∧ line.getLast? = some 13 then
        (some true, { st2 with buf := 13 :: st2.buf })
      else (some true, st2)
    else if line.length = 0 then
      if err = none then (some true, st2) else (none, st2)
    else (some false, st2)

/-- Termination measure for the counting loop: bytes still to deliver,
plus one while EOF has not been seen yet. -/
def stateSize (st : ReaderState) : Nat :=
  2 * (st.buf.length + st.rest.length) + (if st.eofSeen then 0 else 1)

theorem readLine_size_lt (cap : Nat) (hcap : 2 ≤ cap) (st : ReaderState)
    (pfx : Bool) (st2 : ReaderState) (h : readLine cap st = (some pfx, st2)) :
    stateSize st2 < stateSize st := by
  have hs := readSlice_spec cap st.buf st.rest st.eofSeen
  unfold readLine at h
  rcases hr : readSlice cap st.buf st.rest st.eofSeen with ⟨line, st3, err⟩
  rw [hr] at h hs
  have hlen : st3.buf.length + st3.rest.length + line.length =
      st.buf.length + st.rest.length := hs.1
  have hbf : err = some SliceErr.bufferFull → cap ≤ line.length := hs.2.2.1
  have hnone : err = none → line ≠ [] := hs.2.1
  have hmono : st.eofSeen = true → st3.eofSeen = true := hs.2.2.2
  have hflag : (if st3.eofSeen then 0 else 1 : Nat) ≤ (if st.eofSeen then 0 else 1) := by
    by_cases hx : st.eofSeen = true
    · simp [hx, hmono hx]
    · simp only [Bool.not_eq_true] at hx
      simp only [hx, Bool.false_eq_true, if_false]
      cases st3.eofSeen <;> simp
  simp only at h
  cases err with
  | none =>
    have hne : line ≠ [] := hnone rfl
    have hl : line.length ≠ 0 := by
      simpa [List.length_eq_zero] using hne
    rw [if_neg (by simp)] at h
    rw [if_neg hl] at h
    cases h
    simp only [stateSize]
    omega
  | some se =>
    cases se with
    | bufferFull =>
      have hcapline : cap ≤ line.length := hbf rfl
      rw [if_pos rfl] at h
      by_cases hcr : line ≠ [] ∧ line.getLast? = some 13
      · rw [if_pos hcr] at h
        cases h
        simp only [stateSize, List.length_cons]
        omega
      · rw [if_neg hcr] at h
        cases h
        simp only [stateSize]
        omega
    | eof =>
      rw [if_neg (by decide)] at h
      by_cases hl : line.length = 0
      · rw [if_pos hl] at h
        rw [if_neg (by decide)] at h
        simp at h
      · rw [if_neg hl] at h
        cases h
        simp only [stateSize]
        omega

/-- bot.go, `CountLinesInFile` loop: repeatedly call `ReadLine`, break on
`io.EOF` (the `none` result), and count the returns whose `isPrefix` flag
is false.  `bufio.NewReaderSize` clamps the buffer size to its minimum of
16, hence the `max 16`. -/
def countLinesGoLoop (cap : Nat) (st : ReaderState) : Nat :=
  if h : (readLine (max 16 cap) st).1 = none then 0
  else
    (if (readLine (max 16 cap) st).1 = some false then 1 else 0) +
      countLinesGoLoop cap (readLine (max 16 cap) st).2
termination_by stateSize st
decreasing_by
  rcases ho : (readLine (max 16 cap) st).1 with _ | pfx
  · exact absurd ho h
  · refine readLine_size_lt (max 16 cap) (by omega) st pfx _ ?_
    rw [← ho]

/-- bot.go, `bufio.NewReader` default buffer size. -/
def defaultBufSize : Nat := 4096

/-- bot.go: `CountLinesInFile` issues a GET for the URL, rejects
`StatusCode != 200`, and runs the `ReadLine` counting loop over the body,
starting from an empty buffer with no error seen. -/
def CountLinesInFile (b : Bot) (fileURL : String)
    (resp : HttpResult (List Nat)) : Except GoError Nat :=
  match resp with
  | .failure e => .error (.netErr e)
  | .success status body =>
    if status ≠ 200 then .error (.errorsNew "failed to download file")
    else .ok (countLinesGoLoop defaultBufSize ⟨[], body, false⟩)

/-- Outbound actions of the dispatcher, recorded as an explicit trace. -/
inductive Event where
  | handlerCall (chatID : Int)
  | sendMessageReq (chatID : Int) (text : String)
  | getFileReq (fileID : String)
  | downloadReq (url : String)
deriving Repr, DecidableEq

/-- bot.go: `AddCommand` inserts or overwrites the handler for `command`. -/
def AddCommand (b : Bot) (command : String) (handler : Handler) : Bot :=
  { b with commands := fun s => if s = command then some handler else b.commands s }

/-- bot.go: `HandleUpdate` looks the message text up in the command table;
on a hit it calls the handler with the chat id and sends the returned string
to that chat, discarding `SendMessage`'s result; it always returns `nil`.
The returned triple is (receiver after the call, trace, returned error). -/
def HandleUpdate (b : Bot) (update : Update) (sendResp : HttpResult Envelope) :
    Bot × List Event × Except GoError Unit :=
  match b.commands update.Message.Text with
  | some handler =>
    let response := handler update.Message.Chat.ID
    let _ := SendMessage b update.Message.Chat.ID response sendResp
    (b, [Event.handlerCall update.Message.Chat.ID,
         Event.sendMessageReq update.Message.Chat.ID response], .ok ())
  | none => (b, [], .ok ())

/-- bot.go: `HandleDocument` rejects an empty `file_id` without any HTTP
call; otherwise it resolves the file id via `GetFileURL` and, on success,
downloads and counts lines via `CountLinesInFile`, propagating errors.
The returned triple is (receiver after the call, trace, result). -/
def HandleDocument (b : Bot) (update : Update)
    (getFileResp : HttpResult (Except String FileResponse))
    (downloadResp : HttpResult (List Nat)) :
    Bot × List Event × Except GoError Nat :=
  if update.Message.Document.FileID = "" then
    (b, [], .error (.errorsNew "no document file ID found"))
  else
    match GetFileURL b update.Message.Document.FileID getFileResp with
    | .error e => (b, [Event.getFileReq update.Message.Document.FileID], .error e)
    | .ok fileURL =>
      match CountLinesInFile b fileURL downloadResp with
      | .error e =>
        (b, [Event.getFileReq update.Message.Document.FileID,
             Event.downloadReq fileURL], .error e)
      | .ok lineCount =>
        (b, [Event.getFileReq update.Message.Document.FileID,
             Event.downloadReq fileURL], .ok lineCount)

/-- The line-count formula stated by the specification (P4): the number of
LF bytes, plus one when the stream is nonempty and does not end in LF. -/
def specLineCount (s : List Nat) : Nat :=
  s.count 10 + (if s ≠ [] ∧ s.getLast? ≠ some 10 then 1 else 0)

/-- An LF-free stretch of 97-bytes contains no LF at any scan start. -/
theorem findIdx?_lf_replicate (n j : Nat) :
    List.findIdx? (fun c => c == 10) (List.replicate n (97 : Nat)) j = none := by
  induction n generalizing j with
  | zero => simp
  | succ m ih => simp [List.replicate_succ, List.findIdx?_cons, ih]

/-- First `ReadSlice` call on the 4096-byte LF-free body: the whole body
fills the buffer exactly, no LF is found, and `ErrBufferFull` is reported
with the stream exhausted but EOF not yet seen. -/
theorem readSlice_boundaryBody :
    readSlice 4096 [] (List.replicate 4096 97) false =
      (List.replicate 4096 97, ⟨[], [], false⟩, some SliceErr.bufferFull) := by
  rw [readSlice]
  norm_num [List.findIdx?_nil, List.take_replicate, List.drop_replicate,
    List.replicate_eq_nil_iff]
  rw [readSlice]
  norm_num [findIdx?_lf_replicate, List.length_replicate]

/-- Second `ReadSlice` call: empty buffer, exhausted stream; `fill` now
returns `io.EOF`, and the rescan surfaces it with an empty line. -/
theorem readSlice_emptyEof :
    readSlice 4096 [] [] false = ([], ⟨[], [], true⟩, some SliceErr.eof) := by
  rw [readSlice]
  norm_num [List.findIdx?_nil]
  rw [readSlice]
  norm_num [List.findIdx?_nil]

/-- First `ReadLine` on the boundary body: `ErrBufferFull`, no CR putback,
`isPrefix = true` — the 4096 bytes are consumed but not counted. -/
theorem readLine_boundaryBody :
    readLine 4096 ⟨[], List.replicate 4096 97, false⟩ =
      (some true, ⟨[], [], false⟩) := by
  unfold readLine
  rw [readSlice_boundaryBody]
  norm_num [List.getLast?_replicate]

/-- Second `ReadLine`: empty line with `io.EOF` — the loop breaks without
ever counting the final unterminated line. -/
theorem readLine_emptyEof :
    readLine 4096 ⟨[], [], false⟩ = (none, ⟨[], [], true⟩) := by
  unfold readLine
  rw [readSlice_emptyEof]
  decide

/-- The counting loop returns 0 on the boundary body. -/
theorem countLinesGoLoop_boundaryBody :
    countLinesGoLoop 4096 ⟨[], List.replicate 4096 97, false⟩ = 0 := by
  have hmax : max 16 4096 = 4096 := by decide
  rw [countLinesGoLoop]
  simp only [hmax, readLine_boundaryBody]
  rw [dif_neg (by decide)]
  rw [if_neg (by decide)]
  rw [countLinesGoLoop]
  simp only [hmax, readLine_emptyEof]
  rw [dif_pos (by decide)]

/- Concrete values shared by the witnesses below. -/

/-- A sample handler, `"/ping" → "pong"`. -/
def pingHandler : Handler := fun _ => "pong"

/-- A second sample handler, to exercise overwriting. -/
def pongHandler : Handler := fun _ => "ping"

/-- A sample update carrying the text `/ping` from chat 42 and no document. -/
def updateW : Update :=
  { UpdateID := 1
    Message :=
      { MessageID := 1
        From :=
          { ID := 7, IsBot := false, FirstName := "", LastName := ""
            Username := "", LanguageCode := "" }
        Chat :=
          { ID := 42, type := "private", Title := "", Username := ""
            FirstName := "", LastName := "" }
        Date := 0
        Text := "/ping"
        Document := { FileID := "", FileName := "", FileSize := 0 } } }

/-- A sample update carrying a document with file id `F`. -/
def updateDoc : Update :=
  { updateW with
    Message :=
      { updateW.Message with
        Document := { FileID := "F", FileName := "f.txt", FileSize := 8 } } }

/-- A sample successful `getFile` envelope. -/
def fileRespW : FileResponse :=
  { Ok := true, Result := { FileID := "F", FilePath := "x.txt" } }

/- Claim theorems. -/

/-- C1 counterexample: `GetUpdates` never inspects the HTTP status code: on
a status-500 response whose body decodes to an `ok` envelope it reports
success, where the claim demands an error. -/
theorem getUpdates_ok_on_500 :
    GetUpdates (NewBot "TOKEN") 0
      (HttpResult.success 500 (Except.ok { Ok := true, Result := [] })) =
      Except.ok [] := rfl

/-- C1 (amended): any non-2xx HTTP status makes SendMessage, GetFileURL,
SendFile and CountLinesInFile return an error (the `Except.error` carries no
result value); GetUpdates however ignores the HTTP status and fails only on
network error, decode failure, or a non-ok envelope. -/
theorem non2xx_errors_amended (status : Nat)
    (hst : ¬(200 ≤ status ∧ status < 300))
    (b : Bot) (chatID : Int) (text : String) (env : Envelope)
    (fileID : String) (fbody : Except String FileResponse)
    (filePath caption : String) (file : Except String (List Nat))
    (fileURL : String) (dbody : List Nat) :
    (SendMessage b chatID text (HttpResult.success status env)).isOk = false ∧
    (GetFileURL b fileID (HttpResult.success status fbody)).isOk = false ∧
    (SendFile b chatID filePath caption file
        (HttpResult.success status env)).isOk = false ∧
    (CountLinesInFile b fileURL (HttpResult.success status dbody)).isOk = false := by
  have h200 : status ≠ 200 := by omega
  refine ⟨?_, ?_, ?_, ?_⟩
  · simp [SendMessage, h200, Except.isOk, Except.toBool]
  · simp [GetFileURL, h200, Except.isOk, Except.toBool]
  · cases file with
    | error e => simp [SendFile, Except.isOk, Except.toBool]
    | ok f => simp [SendFile, h200, Except.isOk, Except.toBool]
  · simp [CountLinesInFile, h200, Except.isOk, Except.toBool]

/-- C1 (amended) witness at status 500. -/
theorem non2xx_errors_amended_witness :
    (SendMessage (NewBot "TOKEN") 1 "m"
        (HttpResult.success 500 { ok := true, description := "" })).isOk = false ∧
    (GetFileURL (NewBot "TOKEN") "F"
        (HttpResult.success 500 (Except.ok fileRespW))).isOk = false ∧
    (SendFile (NewBot "TOKEN") 1 "p.txt" ""
        (Except.ok [97])
        (HttpResult.success 500 { ok := true, description := "" })).isOk = false ∧
    (CountLinesInFile (NewBot "TOKEN") "u"
        (HttpResult.success 500 [97])).isOk = false :=
  non2xx_errors_amended 500 (by omega) (NewBot "TOKEN") 1 "m"
    { ok := true, description := "" } "F" (Except.ok fileRespW) "p.txt" ""
    (Except.ok [97]) "u" [97]

/-- C2 counterexample: `SendMessage` never reads the response body: on an
HTTP-200 response whose well-formed envelope has `ok = false` it succeeds,
where the claim demands an error. -/
theorem sendMessage_ignores_envelope :
    SendMessage (NewBot "TOKEN") 1 "hi"
      (HttpResult.success 200 { ok := false, description := "x" }) =
      Except.ok () := rfl

/-- C2 (amended): a well-formed envelope with `ok = false` is a terminal
error for GetUpdates and GetFileURL; SendMessage and SendFile never decode
the envelope and succeed on any HTTP-200 response regardless of its `ok`
field. -/
theorem envelope_not_ok_amended (b : Bot) (offset chatID : Int)
    (text fileID filePath caption : String) (status : Nat)
    (ur : UpdateResponse) (fr : FileResponse) (env : Envelope)
    (contents : List Nat) (hur : ur.Ok = false) (hfr : fr.Ok = false) :
    GetUpdates b offset (HttpResult.success status (Except.ok ur)) =
      Except.error (GoError.errorsNew "failed to get updates") ∧
    (GetFileURL b fileID (HttpResult.success status (Except.ok fr))).isOk = false ∧
    SendMessage b chatID text (HttpResult.success 200 env) = Except.ok () ∧
    SendFile b chatID filePath caption (Except.ok contents)
      (HttpResult.success 200 env) = Except.ok () := by
  refine ⟨?_, ?_, ?_, ?_⟩
  · simp [GetUpdates, hur]
  · by_cases h200 : status = 200
    · subst h200; simp [GetFileURL, hfr, Except.isOk, Except.toBool]
    · simp [GetFileURL, h200, Except.isOk, Except.toBool]
  · simp [SendMessage]
  · simp [SendFile]

/-- C2 (amended) witness. -/
theorem envelope_not_ok_amended_witness :
    GetUpdates (NewBot "TOKEN") 0
      (HttpResult.success 200 (Except.ok { Ok := false, Result := [] })) =
      Except.error (GoError.errorsNew "failed to get updates") ∧
    (GetFileURL (NewBot "TOKEN") "F"
        (HttpResult.success 200
          (Except.ok { Ok := false, Result := { FileID := "F", FilePath := "x.txt" } }))).isOk
      = false ∧
    SendMessage (NewBot "TOKEN") 1 "hi"
      (HttpResult.success 200 { ok := false, description := "x" }) = Except.ok () ∧
    SendFile (NewBot "TOKEN") 1 "p.txt" "" (Except.ok [97])
      (HttpResult.success 200 { ok := false, description := "x" }) = Except.ok () :=
  envelope_not_ok_amended (NewBot "TOKEN") 0 1 "hi" "F" "p.txt" "" 200
    { Ok := false, Result := [] }
    { Ok := false, Result := { FileID := "F", FilePath := "x.txt" } }
    { ok := false, description := "x" } [97] rfl rfl

/-- C3 (code bug): the claim's formula is the spec's stated intent (P4,
with the final unterminated line counted), but the code violates it at the
buffer boundary: on a successfully downloaded body of exactly 4096 LF-free
bytes — the reader's buffer size — `CountLinesInFile` returns 0, while the
formula gives 1.  `ReadLine` consumes the bytes through `ErrBufferFull`
with `isPrefix = true`, the http body then delivers `io.EOF` on a separate
read with no data, and the final line is dropped. -/
theorem countLinesInFile_boundary_bug :
    CountLinesInFile (NewBot "TOKEN") "u"
      (HttpResult.success 200 (List.replicate 4096 97)) = Except.ok 0 ∧
    specLineCount (List.replicate 4096 97) = 1 := by
  constructor
  · simp only [CountLinesInFile, defaultBufSize]
    rw [if_neg (by omega)]
    rw [countLinesGoLoop_boundaryBody]
  · have h1 : List.count 10 (List.replicate 4096 (97 : Nat)) = 0 := by
      rw [List.count_replicate]; norm_num
    have h2 : (List.replicate 4096 (97 : Nat)).getLast? = some 97 := by
      rw [List.getLast?_replicate]; norm_num
    have h3 : List.replicate 4096 (97 : Nat) ≠ [] := by
      intro hcontra
      have hlen := congrArg List.length hcontra
      rw [List.length_replicate, List.length_nil] at hlen
      exact absurd hlen (by norm_num)
    simp only [specLineCount, h1, h2]
    rw [if_pos ⟨h3, by decide⟩]

/-- C4: after `AddCommand t h`, `HandleUpdate` on an update whose text is `t`
calls `h` exactly once with the update's chat id, then sends the returned
string (whatever it is, including empty) to that same chat id, and returns. -/
theorem handleUpdate_dispatches_once (b : Bot) (t : String) (h : Handler)
    (u : Update) (sendResp : HttpResult Envelope) (ht : u.Message.Text = t) :
    HandleUpdate (AddCommand b t h) u sendResp =
      (AddCommand b t h,
       [Event.handlerCall u.Message.Chat.ID,
        Event.sendMessageReq u.Message.Chat.ID (h u.Message.Chat.ID)],
       Except.ok ()) := by
  subst ht
  simp [HandleUpdate, AddCommand]

/-- C4 witness: the `"/ping" → "pong"` echo scenario at chat 42. -/
theorem handleUpdate_dispatches_once_witness :
    HandleUpdate (AddCommand (NewBot "TOKEN") "/ping" pingHandler) updateW
      (HttpResult.success 200 { ok := true, description := "" }) =
      (AddCommand (NewBot "TOKEN") "/ping" pingHandler,
       [Event.handlerCall 42, Event.sendMessageReq 42 "pong"],
       Except.ok ()) :=
  handleUpdate_dispatches_once (NewBot "TOKEN") "/ping" pingHandler updateW
    (HttpResult.success 200 { ok := true, description := "" }) rfl

/-- C5: `HandleUpdate` always returns `nil`: the error of the nested
`SendMessage` is dropped, so the returned error is `ok` for every update,
command table, and outcome of the outbound send. -/
theorem handleUpdate_always_ok (b : Bot) (u : Update)
    (sendResp : HttpResult Envelope) :
    (HandleUpdate b u sendResp).2.2 = Except.ok () := by
  cases hb : b.commands u.Message.Text <;> simp [HandleUpdate, hb]

/-- C6: when the message text matches no registered command, `HandleUpdate`
makes no outbound call (empty trace: no handler invocation, no sendMessage
request) and returns success, leaving the bot unchanged. -/
theorem handleUpdate_no_match_silent (b : Bot) (u : Update)
    (sendResp : HttpResult Envelope)
    (hmiss : b.commands u.Message.Text = none) :
    HandleUpdate b u sendResp = (b, [], Except.ok ()) := by
  simp [HandleUpdate, hmiss]

/-- C6 witness: a fresh bot has no commands, so `/ping` is silently
ignored. -/
theorem handleUpdate_no_match_silent_witness :
    HandleUpdate (NewBot "TOKEN") updateW
      (HttpResult.success 200 { ok := true, description := "" }) =
      (NewBot "TOKEN", [], Except.ok ()) :=
  handleUpdate_no_match_silent (NewBot "TOKEN") updateW
    (HttpResult.success 200 { ok := true, description := "" }) rfl

/-- C7: with an empty `file_id`, `HandleDocument` fails with the no-document
error and performs zero HTTP calls (empty trace); otherwise its result is
exactly `GetFileURL` on the file id followed by `CountLinesInFile` on the
resulting URL, so the line count is returned and every resolution or
download error is propagated. -/
theorem handleDocument_spec (b : Bot) (u : Update)
    (getFileResp : HttpResult (Except String FileResponse))
    (downloadResp : HttpResult (List Nat)) :
    (u.Message.Document.FileID = "" →
      HandleDocument b u getFileResp downloadResp =
        (b, [], Except.error (GoError.errorsNew "no document file ID found"))) ∧
    (u.Message.Document.FileID ≠ "" →
      (HandleDocument b u getFileResp downloadResp).2.2 =
        (GetFileURL b u.Message.Document.FileID getFileResp).bind
          (fun fileURL => CountLinesInFile b fileURL downloadResp)) := by
  constructor
  · intro hf; simp [HandleDocument, hf]
  · intro hf
    unfold HandleDocument
    simp only [if_neg hf]
    cases hg : GetFileURL b u.Message.Document.FileID getFileResp with
    | error e => simp [hg, Except.bind]
    | ok fileURL =>
      cases hc : CountLinesInFile b fileURL downloadResp with
      | error e => simp [hg, hc, Except.bind]
      | ok lineCount => simp [hg, hc, Except.bind]

/-- C7 witness: the empty-file-id update fails without HTTP calls, and the
document update resolves then counts (scenario: body `"a\nb"`). -/
theorem handleDocument_spec_witness :
    HandleDocument (NewBot "TOKEN") updateW (HttpResult.failure "net")
      (HttpResult.failure "net2") =
      (NewBot "TOKEN", [],
       Except.error (GoError.errorsNew "no document file ID found")) ∧
    (HandleDocument (NewBot "TOKEN") updateDoc
        (HttpResult.success 200 (Except.ok fileRespW))
        (HttpResult.success 200 [97, 10, 98])).2.2 =
      (GetFileURL (NewBot "TOKEN") "F"
          (HttpResult.success 200 (Except.ok fileRespW))).bind
        (fun fileURL =>
          CountLinesInFile (NewBot "TOKEN") fileURL
            (HttpResult.success 200 [97, 10, 98])) :=
  ⟨(handleDocument_spec (NewBot "TOKEN") updateW (HttpResult.failure "net")
      (HttpResult.failure "net2")).1 rfl,
   (handleDocument_spec (NewBot "TOKEN") updateDoc
      (HttpResult.success 200 (Except.ok fileRespW))
      (HttpResult.success 200 [97, 10, 98])).2 (by decide)⟩

/-- C8 counterexample: at HTTP status 201 — a 2xx status — with a decoded
envelope whose `Ok` is true, `GetFileURL` returns an error instead of the
URL the claim promises. -/
theorem getFileURL_rejects_201 :
    (200 ≤ 201 ∧ 201 < 300) ∧
    GetFileURL (NewBot "TOKEN") "F"
      (HttpResult.success 201 (Except.ok fileRespW)) =
      Except.error (GoError.errorsNew "failed to get file URL") :=
  ⟨by omega, rfl⟩

/-- C8 (amended): `GetFileURL` returns a URL iff the HTTP status is exactly
200 (not any 2xx) and the body decodes to an envelope with `Ok = true`, and
in that case the URL is exactly
`https://api.telegram.org/file/bot<TOKEN>/<file_path>`; in every other case
it returns an error. -/
theorem getFileURL_amended (b : Bot) (fileID : String)
    (resp : HttpResult (Except String FileResponse)) :
    ((∃ u, GetFileURL b fileID resp = Except.ok u) ↔
      (∃ fr, resp = HttpResult.success 200 (Except.ok fr) ∧ fr.Ok = true)) ∧
    (∀ fr, resp = HttpResult.success 200 (Except.ok fr) → fr.Ok = true →
      GetFileURL b fileID resp =
        Except.ok ("https://api.telegram.org/file/bot" ++ b.Token ++ "/" ++
          fr.Result.FilePath)) := by
  cases resp with
  | failure m =>
    refine ⟨⟨?_, ?_⟩, ?_⟩
    · rintro ⟨u, hu⟩; simp [GetFileURL] at hu
    · rintro ⟨fr, hfr, _⟩; cases hfr
    · intro fr hfr; cases hfr
  | success status body =>
    by_cases h200 : status = 200
    · subst h200
      cases body with
      | error e =>
        refine ⟨⟨?_, ?_⟩, ?_⟩
        · rintro ⟨u, hu⟩; simp [GetFileURL] at hu
        · rintro ⟨fr, hfr, _⟩
          injection hfr with h1 h2
          cases h2
        · intro fr hfr
          injection hfr with h1 h2
          cases h2
      | ok fr =>
        by_cases hok : fr.Ok
        · refine ⟨⟨?_, ?_⟩, ?_⟩
          · intro _; exact ⟨fr, rfl, hok⟩
          · intro _
            exact ⟨"https://api.telegram.org/file/bot" ++ b.Token ++ "/" ++
              fr.Result.FilePath, by simp [GetFileURL, hok]⟩
          · intro fr2 hfr2 hok2
            injection hfr2 with h1 h2
            injection h2 with h3
            subst h3
            simp [GetFileURL, hok]
        · refine ⟨⟨?_, ?_⟩, ?_⟩
          · rintro ⟨u, hu⟩
            simp [GetFileURL, hok] at hu
          · rintro ⟨fr2, hfr2, hok2⟩
            injection hfr2 with h1 h2
            injection h2 with h3
            subst h3
            exact absurd hok2 hok
          · intro fr2 hfr2 hok2
            injection hfr2 with h1 h2
            injection h2 with h3
            subst h3
            exact absurd hok2 hok
    · refine ⟨⟨?_, ?_⟩, ?_⟩
      · rintro ⟨u, hu⟩
        simp [GetFileURL, h200] at hu
      · rintro ⟨fr, hfr, _⟩
        injection hfr with h1 h2
        exact absurd h1 h200
      · intro fr hfr hok
        injection hfr with h1 h2
        exact absurd h1 h200

/-- C8 (amended) witness: at status 200 with an `Ok` envelope carrying file
path `x.txt`, the returned URL is the exact concatenation. -/
theorem getFileURL_amended_witness :
    GetFileURL (NewBot "TOKEN") "F"
      (HttpResult.success 200 (Except.ok fileRespW)) =
      Except.ok ("https://api.telegram.org/file/bot" ++ (NewBot "TOKEN").Token ++
        "/" ++ fileRespW.Result.FilePath) :=
  (getFileURL_amended (NewBot "TOKEN") "F"
    (HttpResult.success 200 (Except.ok fileRespW))).2 fileRespW rfl rfl

/-- C9: the command table holds one handler per text and the last
registration wins: after `AddCommand t h1; AddCommand t h2`, looking up `t`
(case-sensitive exact match on the map key) yields `h2`, and every other
text maps exactly as before. -/
theorem addCommand_last_wins (b : Bot) (t : String) (h1 h2 : Handler) :
    (AddCommand (AddCommand b t h1) t h2).commands t = some h2 ∧
    ∀ t2, t2 ≠ t →
      (AddCommand (AddCommand b t h1) t h2).commands t2 = b.commands t2 := by
  constructor
  · simp [AddCommand]
  · intro t2 hne; simp [AddCommand, hne]

/-- C9 witness: overwrite `/ping` and check both the overwritten key and an
untouched key. -/
theorem addCommand_last_wins_witness :
    (AddCommand (AddCommand (NewBot "TOKEN") "/ping" pingHandler) "/ping"
        pongHandler).commands "/ping" = some pongHandler ∧
    (AddCommand (AddCommand (NewBot "TOKEN") "/ping" pingHandler) "/ping"
        pongHandler).commands "/other" = none :=
  ⟨(addCommand_last_wins (NewBot "TOKEN") "/ping" pingHandler pongHandler).1,
   (addCommand_last_wins (NewBot "TOKEN") "/ping" pingHandler pongHandler).2
     "/other" (by decide)⟩

/-- C10: frame property: `HandleUpdate` and `HandleDocument` leave the whole
bot — in particular the command table — unchanged, and `AddCommand` changes
only the command table, leaving `Token` and `Client` as they were. -/
theorem frame_preservation (b : Bot) (u : Update)
    (sendResp : HttpResult Envelope)
    (getFileResp : HttpResult (Except String FileResponse))
    (downloadResp : HttpResult (List Nat)) (t : String) (h : Handler) :
    (HandleUpdate b u sendResp).1 = b ∧
    (HandleDocument b u getFileResp downloadResp).1 = b ∧
    (AddCommand b t h).Token = b.Token ∧
    (AddCommand b t h).Client = b.Client := by
  refine ⟨?_, ?_, rfl, rfl⟩
  · cases hb : b.commands u.Message.Text <;> simp [HandleUpdate, hb]
  · unfold HandleDocument
    by_cases hf : u.Message.Document.FileID = ""
    · simp [hf]
    · simp only [if_neg hf]
      cases hg : GetFileURL b u.Message.Document.FileID getFileResp with
      | error e => simp [hg]
      | ok fileURL =>
        cases hc : CountLinesInFile b fileURL downloadResp with
        | error e => simp [hg, hc]
        | ok lineCount => simp [hg, hc]

end TelegramBot
